import Mathlib

/-!
Verification development for the psy-automation pipeline.

This file shallowly embeds the core of `stage2_web_scraping.py` (URL handling,
fetch retry loop, same-domain test) and `stage4_validation.py` (the
`DataValidator` field normalizers and the `DataFormatter` reconciliation pass)
as executable Lean definitions, and proves properties of the embedded code.

Modelling conventions:
- Python strings are Lean `String` / `List Char`; character classes of the
  Python regexes are modelled over ASCII (all inputs of interest are ASCII).
- Python truthiness of a string value is `s ≠ ""`; a missing/None optional
  field is modelled by the empty string (both are falsy at every use site),
  except dict key-presence tests, which use `Option`.
- Each Python regex used by the code is embedded as a deterministic matcher;
  the doc comment of each matcher states the regex it implements.  The
  matchers assume their input has no trailing newline, which holds at every
  call site because the code strips its input first.
- `datetime.now()` is passed in as the `today` argument.
- Network I/O in `fetch_url` is modelled by an oracle `Nat → FetchOutcome`
  giving the outcome of the n-th GET request of the call.
-/

/-! ## Character classes (ASCII readings of the Python regex classes) -/

/-- ASCII reading of the regex class `[A-Za-z]`. -/
def isAsciiLetter (c : Char) : Bool :=
  ('A' ≤ c && c ≤ 'Z') || ('a' ≤ c && c ≤ 'z')

/-- ASCII reading of the regex class `[A-Z]`. -/
def isUpperAZ (c : Char) : Bool := 'A' ≤ c && c ≤ 'Z'

/-- ASCII reading of the regex class `\d` / Python `str.isdigit`. -/
def isDigitChar (c : Char) : Bool := c.isDigit

/-- ASCII reading of the regex class `\w` (word character). -/
def isWordChar (c : Char) : Bool := isAsciiLetter c || c.isDigit || c = '_'

/-- Whitespace, the regex class `\s` / what Python `str.strip` removes. -/
def isWS (c : Char) : Bool := c.isWhitespace

/-- The regex class `[\w\s]`. -/
def isWordOrWS (c : Char) : Bool := isWordChar c || isWS c

/-- The regex class `[\dA-Za-z]` of the unit-address pattern. -/
def isAlnumAscii (c : Char) : Bool := c.isDigit || isAsciiLetter c

/-- The separator class `[\/\\]` of the unit-address pattern. -/
def isSlash (c : Char) : Bool := c = '/' || c = '\\'

/-! ## Generic list-of-characters helpers -/

/-- Python `str.strip`: drop leading and trailing whitespace. -/
def trimList (l : List Char) : List Char :=
  ((l.dropWhile isWS).reverse.dropWhile isWS).reverse

/-- Substring containment (`needle in hay` for Python strings). -/
def containsSub (hay needle : List Char) : Bool :=
  match hay with
  | [] => needle.isEmpty
  | _ :: t => needle.isPrefixOf hay || containsSub t needle

/-- Python `s.strip()` on a `String`. -/
def pyStrip (s : String) : String := String.mk (trimList s.toList)

/-! ## stage4_validation.py — DataValidator.validate_phone -/

/-- Python list/str slicing `l[a:b]`. -/
def pySlice (l : List Char) (a b : Nat) : List Char := (l.drop a).take (b - a)

/-- Embedding of `DataValidator.validate_phone` (stage4_validation.py lines
154-206).  Digits are extracted, a dropped leading zero of a 9-digit mobile is
restored, validity is the 8..12 digit-count test, and the formatted value
follows the code's `if/elif` chain — including the Python operator-precedence
reading of line 189: `len == 10 and startswith "1300" or startswith "1800"`
parses as `(len == 10 and startswith "1300") or startswith "1800"`. -/
def validate_phone (phone : String) : Bool × String :=
  if phone = "" then (false, "")
  else
    let d0 := phone.toList.filter isDigitChar
    let d := if d0.length = 9 ∧ d0.headD ' ' = '4' then '0' :: d0 else d0
    if 8 ≤ d.length ∧ d.length ≤ 12 then
      if d.length = 10 ∧ (['0', '4'].isPrefixOf d) then
        (true, String.mk ('0' :: pySlice d 1 4 ++ ' ' :: pySlice d 4 7 ++ ' ' :: pySlice d 7 10))
      else if d.length = 10 ∧ (['0', '2'].isPrefixOf d ∨ ['0', '3'].isPrefixOf d ∨
                               ['0', '7'].isPrefixOf d ∨ ['0', '8'].isPrefixOf d) then
        (true, String.mk ('(' :: pySlice d 0 2 ++ ')' :: ' ' :: pySlice d 2 6 ++ ' ' :: pySlice d 6 10))
      else if (d.length = 10 ∧ ['1', '3', '0', '0'].isPrefixOf d) ∨ ['1', '8', '0', '0'].isPrefixOf d then
        (true, String.mk (pySlice d 0 4 ++ ' ' :: pySlice d 4 7 ++ ' ' :: pySlice d 7 10))
      else if d.length = 8 then
        (true, String.mk (pySlice d 0 4 ++ ' ' :: pySlice d 4 8))
      else if d.length = 9 then
        (true, String.mk (pySlice d 0 3 ++ ' ' :: pySlice d 3 6 ++ ' ' :: pySlice d 6 9))
      else
        (true, String.mk d)
    else (false, phone)

/-! ## stage4_validation.py — DataValidator.validate_psychologist_type -/

/-- Embedding of `DataValidator.validate_psychologist_type` (lines 208-234):
trim and upper-case; accept "C"/"G" directly; otherwise infer from a leading
letter or a "CLINICAL"/"GENERAL" substring; otherwise invalid with value "". -/
def validate_psychologist_type (psychType : String) : Bool × String :=
  if psychType = "" then (false, "")
  else
    let t := (trimList psychType.toList).map Char.toUpper
    if t = ['C'] ∨ t = ['G'] then (true, String.mk t)
    else if ['C'].isPrefixOf t ∨ containsSub t "CLINICAL".toList then (true, "C")
    else if ['G'].isPrefixOf t ∨ containsSub t "GENERAL".toList then (true, "G")
    else (false, "")

/-! ## stage4_validation.py — DataValidator.validate_email -/

/-- The regex class `[a-zA-Z0-9._%+-]` of the email local part. -/
def isLocalChar (c : Char) : Bool :=
  isAsciiLetter c || c.isDigit || c = '.' || c = '_' || c = '%' || c = '+' || c = '-'

/-- The regex class `[a-zA-Z0-9.-]` of the email/url domain part. -/
def isDomainChar (c : Char) : Bool :=
  isAsciiLetter c || c.isDigit || c = '.' || c = '-'

/-- Matcher for the domain regex `[a-zA-Z0-9.-]+\.[a-zA-Z]{2,}` anchored on both
sides.  Deterministic reading: the final `[a-zA-Z]{2,}` block must be the
maximal trailing letter run (a shorter choice leaves a letter, not the required
dot, in front of it), so the domain matches iff that run has length ≥ 2, is
preceded by a dot, and the part before the dot is a nonempty run of domain
characters. -/
def domainMatch (d : List Char) : Bool :=
  let r := d.reverse
  let tld := r.takeWhile isAsciiLetter
  let r1 := r.drop tld.length
  decide (2 ≤ tld.length) &&
  (match r1 with
   | '.' :: rest => !rest.isEmpty && rest.all isDomainChar
   | _ => false)

/-- Matcher for `email_pattern = ^[a-zA-Z0-9._%+-]+@[a-zA-Z0-9.-]+\.[a-zA-Z]{2,}$`
(line 24).  Both classes exclude `@`, so the string must split at its first `@`
into a nonempty local run and a matching domain (a second `@` fails the domain
class check). -/
def emailMatch (l : List Char) : Bool :=
  let loc := l.takeWhile (fun c => c ≠ '@')
  match l.drop loc.length with
  | '@' :: dom => !loc.isEmpty && loc.all isLocalChar && domainMatch dom
  | _ => false

/-- Embedding of `DataValidator.validate_email` (lines 110-128).  The input is
trimmed and lower-cased before the regex test, and that normalized string is
returned in both the valid and the invalid case. -/
def validate_email (email : String) : Bool × String :=
  if email = "" then (false, "")
  else
    let e := (trimList email.toList).map Char.toLower
    if emailMatch e then (true, String.mk e) else (false, String.mk e)

/-! ## stage4_validation.py — DataValidator.validate_url -/

/-- Matcher for `url_pattern = ^(http|https)://[a-zA-Z0-9.-]+\.[a-zA-Z]{2,}(/.*)?$`
(line 25).  The host class excludes `/`, so the host is everything up to the
first `/` after the scheme; the optional `(/.*)?` tail must be slash-led and
newline-free (`.` does not match a newline; the input is pre-trimmed so the
`$`-before-final-newline case cannot arise). -/
def urlMatch (l : List Char) : Bool :=
  let afterScheme :=
    if ['h', 't', 't', 'p', ':', '/', '/'].isPrefixOf l then some (l.drop 7)
    else if ['h', 't', 't', 'p', 's', ':', '/', '/'].isPrefixOf l then some (l.drop 8)
    else none
  match afterScheme with
  | none => false
  | some rest =>
    let host := rest.takeWhile (fun c => c ≠ '/')
    let tail := rest.drop host.length
    domainMatch host && (tail.isEmpty || !tail.contains '\n')

/-- Embedding of `DataValidator.validate_url` (lines 130-152): trim, prepend
`http://` when no scheme is present, then the regex test; the possibly
prefixed string is returned in both cases. -/
def validate_url (url : String) : Bool × String :=
  if url = "" then (false, "")
  else
    let u := trimList url.toList
    let u := if "http://".toList.isPrefixOf u ∨ "https://".toList.isPrefixOf u then u
             else "http://".toList ++ u
    if urlMatch u then (true, String.mk u) else (false, String.mk u)

/-! ## stage4_validation.py — DataValidator.validate_price -/

/-- The number part of the price search: `\d+(?:\.\d{2})?` starting at a digit:
the maximal digit run, extended by `.dd` when a dot and two digits follow. -/
def grabNum (l : List Char) : List Char :=
  let ds := l.takeWhile isDigitChar
  match l.drop ds.length with
  | '.' :: a :: b :: _ => if a.isDigit && b.isDigit then ds ++ '.' :: a :: [b] else ds
  | _ => ds

/-- Matcher for `re.search(r"\$?(\d+(?:\.\d{2})?)", price)` (line 250): scan for
the leftmost position where an optional dollar sign is followed by a digit, and
return capture group 1. -/
def priceSearch : List Char → Option (List Char)
  | [] => none
  | '$' :: t => if (t.headD ' ').isDigit then some (grabNum t) else priceSearch t
  | c :: t => if c.isDigit then some (grabNum (c :: t)) else priceSearch t

/-- Embedding of `DataValidator.validate_price` (lines 236-254). -/
def validate_price (price : String) : Bool × String :=
  if price = "" then (false, "")
  else
    match priceSearch price.toList with
    | some g => (true, String.mk g)
    | none => (false, price)

/-! ## stage4_validation.py — DataFormatter.flag_discrepancies -/

/-- Embedding of `DataFormatter.flag_discrepancies` (lines 266-290) for the
string-valued fields the formatter passes it (the dict-membership guard is
always satisfied at the call sites, where both rows carry the full column
set).  Python truthiness of a string is the non-emptiness test. -/
def flag_discrepancies (existingValue newValue field : String) : Bool × String :=
  if existingValue = "" ∨ newValue = "" then (false, "")
  else if pyStrip existingValue ≠ pyStrip newValue then
    (true, "Discrepancy in " ++ field ++ ": '" ++ existingValue ++ "' vs '" ++ newValue ++ "'")
  else (false, "")

/-! ## stage2_web_scraping.py — URL parsing (urllib.parse fragment)

`is_valid_url` and `is_same_domain` use `urllib.parse.urlparse`, of which only
the scheme/netloc split matters here.  A scheme is a nonempty run of letters,
digits, `+`, `-`, `.` starting with a letter and followed by `:`; the netloc is
present exactly when the remainder (after the scheme, or the whole string when
no scheme parses) starts with `//`, and extends to the next `/`, `?` or `#`. -/

/-- Characters allowed in a URL scheme after the leading letter. -/
def isSchemeChar (c : Char) : Bool :=
  isAsciiLetter c || c.isDigit || c = '+' || c = '-' || c = '.'

/-- Modelled `urlparse` scheme split: returns the scheme and the remainder after
the colon when the string starts with a well-formed scheme. -/
def schemeSplit (l : List Char) : Option (List Char × List Char) :=
  let run := l.takeWhile isSchemeChar
  match l.drop run.length with
  | ':' :: rest =>
    if !run.isEmpty && isAsciiLetter (run.headD ' ') then some (run, rest) else none
  | _ => none

/-- Modelled `urlparse` netloc of the part following the scheme. -/
def netlocSplit (l : List Char) : List Char :=
  match l with
  | '/' :: '/' :: rest => rest.takeWhile (fun c => c ≠ '/' && c ≠ '?' && c ≠ '#')
  | _ => []

/-- Modelled `urlparse(url).netloc`. -/
def urlNetloc (url : String) : List Char :=
  match schemeSplit url.toList with
  | some (_, rest) => netlocSplit rest
  | none => netlocSplit url.toList

/-- Embedding of `WebScraper.is_valid_url` (stage2_web_scraping.py lines 81-90):
`all([result.scheme, result.netloc])` — both the scheme and the netloc of the
parsed URL must be nonempty. -/
def is_valid_url (url : String) : Bool :=
  match schemeSplit url.toList with
  | some (_, rest) => !(netlocSplit rest).isEmpty
  | none => false

/-! ## stage2_web_scraping.py — WebScraper.fetch_url -/

/-- Outcome of one GET request, as classified by the fetch loop. -/
inductive FetchOutcome where
  | success (body : String)
  | notFound
  | otherStatus
  | netError
deriving DecidableEq

/-- The retry loop of `fetch_url` (lines 107-125).  `remaining` counts the
attempts the `while retries < max_retries` loop will still admit; `gets` counts
GET requests issued so far by this call, and indexes the outcome oracle.
Status 200 returns the body; status 404 returns failure immediately; any other
status or a network-level error consumes a retry.  The result carries the total
number of GETs issued. -/
def fetchLoop (outcomes : Nat → FetchOutcome) : Nat → Nat → (Bool × Option String) × Nat
  | 0, gets => ((false, none), gets)
  | remaining + 1, gets =>
    match outcomes gets with
    | .success b => ((true, some b), gets + 1)
    | .notFound => ((false, none), gets + 1)
    | .otherStatus => fetchLoop outcomes remaining (gets + 1)
    | .netError => fetchLoop outcomes remaining (gets + 1)

/-- Embedding of `WebScraper.fetch_url` (lines 92-125): an invalid URL fails
with no GET issued; otherwise the retry loop runs with the given maximum. -/
def fetch_url (outcomes : Nat → FetchOutcome) (url : String) (maxRetries : Nat) :
    (Bool × Option String) × Nat :=
  if is_valid_url url then fetchLoop outcomes maxRetries 0 else ((false, none), 0)

/-! ## stage2_web_scraping.py — WebScraper.is_same_domain -/

/-- Python `domain.replace("www.", "")`: remove every occurrence of the
substring `www.`, scanning left to right without overlap. -/
def removeWww : List Char → List Char
  | 'w' :: 'w' :: 'w' :: '.' :: t => removeWww t
  | c :: t => c :: removeWww t
  | [] => []

/-- Embedding of `WebScraper.is_same_domain` (lines 207-216): compare the two
netlocs after `replace("www.", "")`. -/
def is_same_domain (url1 url2 : String) : Bool :=
  removeWww (urlNetloc url1) = removeWww (urlNetloc url2)

/-- Removal of one leading `www.` only — the normalization the specification's
same-domain sentence describes ("equal after removing a leading www."). -/
def stripLeadingWww (l : List Char) : List Char :=
  if ['w', 'w', 'w', '.'].isPrefixOf l then l.drop 4 else l

/-- Occurrence test for the substring `www.`. -/
def hasWww (l : List Char) : Bool := containsSub l ['w', 'w', 'w', '.']

/-! ## stage4_validation.py — DataValidator.validate_address

The address validator uses three regexes: the unit pattern
`^((?:Unit\s+)?[\dA-Za-z]+[\/\\])(\d+(?:[A-Za-z])?)\s+(.+)$`, and the two
acceptance patterns
`address_pattern1 = ^\d+\s+[\w\s]+,\s+[\w\s]+\s+[A-Z]{2,3}\s+\d{4,5}$` and
`address_pattern2 = ^Cnr\s+[\w\s]+\s+&\s+[\w\s]+,\s+[\w\s]+\s+[A-Z]{2,3}\s+\d{4,5}$`,
plus `re.search(r"\b\d{4}\b", ...)` and `re.split(f"\\s+{state}\\s+", ...)`.
Each is embedded as a deterministic matcher below; the determinizations are
justified in the doc comments. -/

/-- Shared segment matcher for `\s+[\w\s]+\s+` anchored on both sides: since
`[\w\s]` contains every whitespace character, a string matches iff it has
length ≥ 3, consists of `[\w\s]` characters only, and starts and ends with a
whitespace character.  The condition is symmetric under reversal, so the same
function serves for reversed segments. -/
def segWsMidWs (p : List Char) : Bool :=
  decide (3 ≤ p.length) && p.all isWordOrWS &&
  (match p.head? with | some c => isWS c | none => false) &&
  (match p.getLast? with | some c => isWS c | none => false)

/-- Matcher for `\s+[\w\s]+` anchored on both sides: length ≥ 2, all `[\w\s]`,
leading whitespace. -/
def segWsMid (p : List Char) : Bool :=
  decide (2 ≤ p.length) && p.all isWordOrWS &&
  (match p.head? with | some c => isWS c | none => false)

/-- Matcher for `\d+\s+[\w\s]+` anchored on both sides (the part of
`address_pattern1` before the comma).  `\d+` must cover the maximal leading
digit run (a shorter choice puts a digit where `\s+` needs whitespace), the
next character must be whitespace, and at least one `[\w\s]` character must
remain. -/
def headX1 (x : List Char) : Bool :=
  let ds := x.takeWhile isDigitChar
  !ds.isEmpty &&
  (match x.drop ds.length with
   | c :: rest => isWS c && !rest.isEmpty && rest.all isWordOrWS
   | [] => false)

/-- Matcher for `Cnr\s+[\w\s]+\s+&\s+[\w\s]+` anchored on both sides (the part
of `address_pattern2` before the comma).  No character class of the pattern
contains `&`, so the string must split at its one `&`; the left remainder after
the literal `Cnr` matches `\s+[\w\s]+\s+` and the right matches `\s+[\w\s]+`. -/
def headX2 (x : List Char) : Bool :=
  match x with
  | 'C' :: 'n' :: 'r' :: rest =>
    let b := rest.takeWhile (fun c => c ≠ '&')
    (match rest.drop b.length with
     | '&' :: c => !c.contains '&' && segWsMidWs b && segWsMid c
     | _ => false)
  | _ => false

/-- Step 3 of the post-comma tail matcher: `[A-Z]{2,3}` then (reversed) the
leading `\s+[\w\s]+\s+`.  The argument is the reversed remainder, so the
uppercase block is at its head; both block widths are admissible. -/
def tailYRev3 (r : List Char) : Bool :=
  match r with
  | a :: b :: rest =>
    isUpperAZ a && isUpperAZ b &&
    (segWsMidWs rest ||
      (match rest with
       | c :: rest2 => isUpperAZ c && segWsMidWs rest2
       | [] => false))
  | _ => false

/-- Step 2 of the post-comma tail matcher: the `\s+` before the postcode must
cover the whole maximal whitespace run next to the digits, because the
`[A-Z]{2,3}` block to its left cannot match whitespace. -/
def tailYRev2 (r : List Char) : Bool :=
  let ws := r.takeWhile isWS
  !ws.isEmpty && tailYRev3 (r.drop ws.length)

/-- Matcher for `\s+[\w\s]+\s+[A-Z]{2,3}\s+\d{4,5}` anchored on both sides (the
part of both address patterns after the comma), applied to the REVERSED tail.
`\d{4,5}` must cover the whole maximal trailing digit run (a shorter choice
leaves a digit where `\s+` needs whitespace), so that run must have length
exactly 4 or 5. -/
def tailYRev (r : List Char) : Bool :=
  let ds := r.takeWhile isDigitChar
  (ds.length = 4 || ds.length = 5) && tailYRev2 (r.drop ds.length)

/-- Matcher for `address_pattern1` (line 22).  No character class of the
pattern contains a comma, so a matching string has exactly one comma, with
`\d+\s+[\w\s]+` before it and `\s+[\w\s]+\s+[A-Z]{2,3}\s+\d{4,5}` after it. -/
def matchP1 (l : List Char) : Bool :=
  let x := l.takeWhile (fun c => c ≠ ',')
  match l.drop x.length with
  | ',' :: y => !y.contains ',' && headX1 x && tailYRev y.reverse
  | _ => false

/-- Matcher for `address_pattern2` (line 23), with the same one-comma split. -/
def matchP2 (l : List Char) : Bool :=
  let x := l.takeWhile (fun c => c ≠ ',')
  match l.drop x.length with
  | ',' :: y => !y.contains ',' && headX2 x && tailYRev y.reverse
  | _ => false

/-- Group 3 of the unit pattern: `\s+(.+)$` — the whitespace run is maximal
(taking less leaves whitespace where `.+` would have to start, which is
allowed, but then the shorter alternative is only reached on backtracking,
which never happens because a longer `\s+` succeeds whenever a shorter one
does for the pre-stripped, newline-free inputs at this call site); the rest
must be nonempty and newline-free (`.` does not match a newline, and `$` sits
at the true end because the input was stripped). -/
def unitMatchSpace (r : List Char) : Option (List Char) :=
  let ws := r.takeWhile isWS
  if ws.isEmpty then none
  else
    let rest := r.drop ws.length
    if rest.isEmpty || rest.contains '\n' then none else some rest

/-- Group 2 of the unit pattern: `(\d+(?:[A-Za-z])?)` — the maximal digit run,
then an optional single letter kept only when the mandatory whitespace still
follows (dropping the letter on backtracking otherwise). -/
def unitMatchNum (rest : List Char) : Option (List Char × List Char) :=
  let ds := rest.takeWhile isDigitChar
  if ds.isEmpty then none
  else
    let r1 := rest.drop ds.length
    match r1 with
    | c :: r2 =>
      if isAsciiLetter c then
        match unitMatchSpace r2 with
        | some tail => some (ds ++ [c], tail)
        | none =>
          match unitMatchSpace r1 with
          | some tail => some (ds, tail)
          | none => none
      else
        (match unitMatchSpace r1 with
         | some tail => some (ds, tail)
         | none => none)
    | [] => none

/-- The `[\dA-Za-z]+[\/\\]` core of unit-pattern group 1: the alphanumeric run
is maximal (it cannot contain the separator) and must be followed by `/` or
`\`. -/
def unitMatchCore (l : List Char) : Option (List Char × List Char) :=
  let run := l.takeWhile isAlnumAscii
  if run.isEmpty then none
  else
    match l.drop run.length with
    | s :: rest => if isSlash s then unitMatchNum rest else none
    | [] => none

/-- Matcher for the unit pattern
`^((?:Unit\s+)?[\dA-Za-z]+[\/\\])(\d+(?:[A-Za-z])?)\s+(.+)$` (line 48), for
pre-stripped input; returns groups 2 and 3.  The optional `Unit\s+` is taken
greedily and the matcher falls back to the empty alternative when the rest of
the pattern then fails, exactly as the backtracking engine does. -/
def unitMatch (l : List Char) : Option (List Char × List Char) :=
  match l with
  | 'U' :: 'n' :: 'i' :: 't' :: rest =>
    let ws := rest.takeWhile isWS
    if ws.isEmpty then unitMatchCore l
    else
      (match unitMatchCore (rest.drop ws.length) with
       | some g => some g
       | none => unitMatchCore l)
  | _ => unitMatchCore l

/-- `re.search(r"\b\d{4}\b", ...)`: test whether a word-delimited 4-digit run
starts at the head of `l`, `before` being the character to the left. -/
def pc4At (before : Option Char) (l : List Char) : Option (List Char) :=
  match l with
  | a :: b :: c :: d :: rest =>
    if a.isDigit && b.isDigit && c.isDigit && d.isDigit
        && (match before with | some x => !isWordChar x | none => true)
        && (match rest with | e :: _ => !isWordChar e | [] => true)
    then some [a, b, c, d] else none
  | _ => none

/-- `re.search(r"\b\d{4}\b", ...)` (line 67): leftmost word-delimited 4-digit
run. -/
def postcodeSearch (before : Option Char) : List Char → Option (List Char)
  | [] => none
  | c :: t =>
    match pc4At before (c :: t) with
    | some pc => some pc
    | none => postcodeSearch (some c) t

/-- The Australian state list of `DataValidator.__init__` (line 29), in its
iteration order. -/
def auStates : List (List Char) :=
  [['N', 'S', 'W'], ['V', 'I', 'C'], ['Q', 'L', 'D'], ['S', 'A'],
   ['W', 'A'], ['T', 'A', 'S'], ['N', 'T'], ['A', 'C', 'T']]

/-- The state detection loop (lines 70-74): the first state code st with
`f" {st} " in f" {address} "`. -/
def stateSearch (a : List Char) : Option (List Char) :=
  auStates.find? (fun st => containsSub (' ' :: a ++ [' ']) (' ' :: st ++ [' ']))

/-- One match attempt of `re.split(f"\\s+{st}\\s+", ...)` at the head of `l`:
greedy whitespace run, the state literal, greedy whitespace run; returns the
remainder after the match. -/
def wsStWsChop (st l : List Char) : Option (List Char) :=
  let ws1 := l.takeWhile isWS
  if ws1.isEmpty then none
  else
    let r1 := l.drop ws1.length
    if st.isPrefixOf r1 then
      let r2 := r1.drop st.length
      let ws2 := r2.takeWhile isWS
      if ws2.isEmpty then none else some (r2.drop ws2.length)
    else none

/-- Leftmost match of `\s+st\s+` in `l`, returning the parts before and after. -/
def findWsStWs (st : List Char) : List Char → Option (List Char × List Char)
  | [] => none
  | c :: t =>
    match wsStWsChop st (c :: t) with
    | some rest => some ([], rest)
    | none =>
      match findWsStWs st t with
      | some (pre, rest) => some (c :: pre, rest)
      | none => none

/-- `parts = re.split(f"\\s+{state}\\s+", address); len(parts) == 2` (lines
82-84): the split has exactly two parts iff the separator pattern matches
exactly once; returns those two parts. -/
def splitPartsTwo (st l : List Char) : Option (List Char × List Char) :=
  match findWsStWs st l with
  | none => none
  | some (pre, rest) =>
    match findWsStWs st rest with
    | some _ => none
    | none => some (pre, rest)

/-- The comma-insertion step of the best-effort rebuild (lines 89-95):
`street_part.rsplit(" ", 1)` splits at the last space when one exists, both
parts are stripped and rejoined with `", "`. -/
def insertComma (l : List Char) : List Char :=
  if l.contains ' ' then
    let r := l.reverse
    let s2r := r.takeWhile (fun c => c ≠ ' ')
    let s1r := (r.drop s2r.length).drop 1
    trimList s1r.reverse ++ ',' :: ' ' :: trimList s2r.reverse
  else l

/-- The acceptance stage of `validate_address` (lines 60-108), applied to the
stripped, unit-stripped string: accept on `address_pattern1` or
`address_pattern2`; otherwise look for a postcode and a state token and, when
the state splits the string in exactly two, rebuild `street, STATE postcode`
(inserting a comma before the suburb when missing) and accept the rebuilt
string if it now matches; in every other case return the string as invalid. -/
def addressAccept (a : List Char) : Bool × String :=
  if matchP1 a || matchP2 a then (true, String.mk a)
  else
    match postcodeSearch none a, stateSearch a with
    | some pc, some st =>
      (match splitPartsTwo st a with
       | some (part0, _) =>
         let street := trimList part0
         let street1 := if street.contains ',' then street else insertComma street
         let formatted := street1 ++ ',' :: ' ' :: (st ++ ' ' :: pc)
         if matchP1 formatted || matchP2 formatted then (true, String.mk formatted)
         else (false, String.mk a)
       | none => (false, String.mk a))
    | _, _ => (false, String.mk a)

/-- Embedding of `DataValidator.validate_address` (lines 31-108): strip, strip
a leading unit prefix via the unit pattern, then run the acceptance stage. -/
def validate_address (address : String) : Bool × String :=
  if address = "" then (false, "")
  else
    let a0 := trimList address.toList
    let a := match unitMatch a0 with
      | some (num, rest) => num ++ ' ' :: rest
      | none => a0
    addressAccept a

/-! ## stage4_validation.py — DataFormatter.format_data_for_excel

A spreadsheet row with the full column set (the code creates any missing
required column as empty before processing, so the embedding fixes the
complete set).  All cells are strings. -/

structure Row where
  practice : String
  address : String
  website : String
  phone : String
  name : String
  email : String
  doctors : String
  ptype : String
  initialConsult : String
  followupConsult : String
  date : String
  notes : String
deriving DecidableEq, Repr

/-- One staff entry of the extraction output: `{"name": ..., "type": ...}`;
absent keys are the (falsy) empty string. -/
structure Psych where
  name : String
  ptype : String
deriving DecidableEq, Repr

/-- `practice_data.get("pricing_info", {})`; absent keys are the empty string. -/
structure Pricing where
  initialConsult : String
  followupConsult : String
deriving DecidableEq, Repr

/-- One practice's extraction output dict.  `error` is an `Option` because the
code tests key presence (`"error" in practice_data`); the other fields are
read with `.get(...)` and tested for truthiness, so absent and empty coincide
and are modelled by `""` / `[]`. -/
structure PracticeData where
  error : Option String
  email : String
  doctorPageUrl : String
  pricingInfo : Pricing
  psychologists : List Psych
deriving DecidableEq, Repr

/-- A value of `extracted_data` may be a dict or (defensively handled, lines
331-337) a list of dicts. -/
inductive PracticeVal where
  | dict (d : PracticeData)
  | list (l : List PracticeData)
deriving DecidableEq, Repr

/-- The list-unwrapping step (lines 332-337): a nonempty list contributes its
first element; an empty list becomes an error dict. -/
def resolvePVal : PracticeVal → PracticeData
  | .dict d => d
  | .list [] =>
    { error := some "Empty list for practice data", email := "", doctorPageUrl := "",
      pricingInfo := { initialConsult := "", followupConsult := "" }, psychologists := [] }
  | .list (d :: _) => d

/-- `practice_name in extracted_data` / `extracted_data[practice_name]`:
first-match association-list lookup (dict keys are unique, so first-match is
exact). -/
def lookupPractice (extracted : List (String × PracticeVal)) (k : String) :
    Option PracticeVal :=
  match extracted with
  | [] => none
  | (k2, v) :: t => if k2 = k then some v else lookupPractice t k

/-- The phone pre-pass (lines 316-321): every nonempty phone cell that
validates is replaced by its formatted value. -/
def phoneFix (r : Row) : Row :=
  if r.phone ≠ "" ∧ (validate_phone r.phone).1 = true then
    { r with phone := (validate_phone r.phone).2 }
  else r

/-- The non-staff field updates of one matched row (lines 344-395): email,
doctor-page URL and the two prices overwrite the cell when present and valid,
and the date cell is set to today.  `snap` is the row snapshot the loop reads
(updates go to the frame, not to the iteration variable). -/
def mainFieldRow (today : String) (snap : Row) (pd : PracticeData) : Row :=
  { snap with
    email := if pd.email ≠ "" ∧ (validate_email pd.email).1 = true then
        (validate_email pd.email).2 else snap.email,
    doctors := if pd.doctorPageUrl ≠ "" ∧ (validate_url pd.doctorPageUrl).1 = true then
        (validate_url pd.doctorPageUrl).2 else snap.doctors,
    initialConsult := if pd.pricingInfo.initialConsult ≠ "" ∧
        (validate_price pd.pricingInfo.initialConsult).1 = true then
        (validate_price pd.pricingInfo.initialConsult).2 else snap.initialConsult,
    followupConsult := if pd.pricingInfo.followupConsult ≠ "" ∧
        (validate_price pd.pricingInfo.followupConsult).1 = true then
        (validate_price pd.pricingInfo.followupConsult).2 else snap.followupConsult,
    date := today }

/-- The first staff member's update of the matched row (lines 404-430). -/
def firstPsychRow (base : Row) (p : Psych) : Row :=
  { base with
    name := if p.name ≠ "" then p.name else base.name,
    ptype := if p.ptype ≠ "" ∧ (validate_psychologist_type p.ptype).1 = true then
        (validate_psychologist_type p.ptype).2 else base.ptype }

/-- One expansion row for an additional staff member (lines 432-459): a copy of
the row snapshot with the staff fields, the re-validated doctor-page URL and
email, and today's date. -/
def cloneRow (today : String) (snap : Row) (pd : PracticeData) (p : Psych) : Row :=
  { snap with
    name := if p.name ≠ "" then p.name else snap.name,
    ptype := if p.ptype ≠ "" ∧ (validate_psychologist_type p.ptype).1 = true then
        (validate_psychologist_type p.ptype).2 else snap.ptype,
    doctors := if pd.doctorPageUrl ≠ "" ∧ (validate_url pd.doctorPageUrl).1 = true then
        (validate_url pd.doctorPageUrl).2 else snap.doctors,
    email := if pd.email ≠ "" ∧ (validate_email pd.email).1 = true then
        (validate_email pd.email).2 else snap.email,
    date := today }

/-- The discrepancy check guarding one field update: performed only on the
update path (new value present and valid), recorded only when
`flag_discrepancies` reports one. -/
def discIf (oldValue newValue field : String) (cond : Prop) [Decidable cond] :
    List String :=
  if cond then
    (if (flag_discrepancies oldValue newValue field).1 then
       [(flag_discrepancies oldValue newValue field).2]
     else [])
  else []

/-- The discrepancies recorded by the non-staff field updates, in program
order: Email, Doctors, Initial Consult, Follow-up Consult. -/
def mainDiscs (snap : Row) (pd : PracticeData) : List String :=
  discIf snap.email (validate_email pd.email).2 "Email"
      (pd.email ≠ "" ∧ (validate_email pd.email).1 = true)
  ++ discIf snap.doctors (validate_url pd.doctorPageUrl).2 "Doctors"
      (pd.doctorPageUrl ≠ "" ∧ (validate_url pd.doctorPageUrl).1 = true)
  ++ discIf snap.initialConsult (validate_price pd.pricingInfo.initialConsult).2 "Initial Consult"
      (pd.pricingInfo.initialConsult ≠ "" ∧ (validate_price pd.pricingInfo.initialConsult).1 = true)
  ++ discIf snap.followupConsult (validate_price pd.pricingInfo.followupConsult).2 "Follow-up Consult"
      (pd.pricingInfo.followupConsult ≠ "" ∧ (validate_price pd.pricingInfo.followupConsult).1 = true)

/-- The discrepancies recorded by the first staff member's update, in program
order: Name, Type. -/
def firstPsychDiscs (snap : Row) (p : Psych) : List String :=
  discIf snap.name p.name "Name" (p.name ≠ "")
  ++ discIf snap.ptype (validate_psychologist_type p.ptype).2 "Type"
      (p.ptype ≠ "" ∧ (validate_psychologist_type p.ptype).1 = true)

/-- Processing of one row of the loop body (lines 324-459): rows with a falsy
practice name or no matching candidate are skipped; an error candidate only
sets the notes cell; otherwise the non-staff fields are updated, a candidate
with no staff gets the "No psychologists found" note, and a candidate with
staff updates the row with the first member and clones the snapshot for each
additional member.  Returns the updated row, the expansion rows and the
discrepancy messages of this row. -/
def processRow (today : String) (extracted : List (String × PracticeVal)) (snap : Row) :
    Row × List Row × List String :=
  if snap.practice = "" then (snap, [], [])
  else
    match lookupPractice extracted snap.practice with
    | none => (snap, [], [])
    | some pv =>
      let pd := resolvePVal pv
      match pd.error with
      | some e => ({ snap with notes := "Extraction error: " ++ e }, [], [])
      | none =>
        let base := mainFieldRow today snap pd
        match pd.psychologists with
        | [] => ({ base with notes := "No psychologists found" }, [], mainDiscs snap pd)
        | p :: rest =>
          (firstPsychRow base p,
           rest.map (cloneRow today snap pd),
           mainDiscs snap pd ++ firstPsychDiscs snap p)

/-- The row loop (lines 324-459) over the phone-fixed frame, collecting updated
rows in place, expansion rows in order, and (index, message) discrepancies. -/
def processAll (today : String) (extracted : List (String × PracticeVal)) :
    Nat → List Row → List Row × List Row × List (Nat × String)
  | _, [] => ([], [], [])
  | i, r :: rs =>
    let x := processRow today extracted r
    let y := processAll today extracted (i + 1) rs
    (x.1 :: y.1, x.2.1 ++ y.2.1, x.2.2.map (fun m => (i, m)) ++ y.2.2)

/-- Embedding of `DataFormatter.format_data_for_excel` (lines 292-461):
returns `(updated_df, new_rows, discrepancies)`. -/
def format_data_for_excel (today : String) (df : List Row)
    (extracted : List (String × PracticeVal)) :
    List Row × List Row × List (Nat × String) :=
  processAll today extracted 0 (df.map phoneFix)

/-! ## Supporting lemmas -/

/-- A psychologist-type validation returns one of three results. -/
lemma vpt_shape (x : String) :
    validate_psychologist_type x = (false, "") ∨
    validate_psychologist_type x = (true, "C") ∨
    validate_psychologist_type x = (true, "G") := by
  simp only [validate_psychologist_type]
  split
  · exact Or.inl rfl
  · split
    · rename_i h
      rcases h with h | h <;> rw [h]
      · exact Or.inr (Or.inl rfl)
      · exact Or.inr (Or.inr rfl)
    · split
      · exact Or.inr (Or.inl rfl)
      · split
        · exact Or.inr (Or.inr rfl)
        · exact Or.inl rfl

/-! ## Claims -/

/-- Claim C2: for every existing row and candidate field processed during
reconciliation, a discrepancy is recorded if and only if the old value is
non-empty, the new normalized value is non-empty, and the two differ after
trimming; in particular no discrepancy is ever recorded when the old value is
empty. -/
theorem c2_flag_discrepancies_iff (existingValue newValue field : String) :
    (flag_discrepancies existingValue newValue field).1 = true ↔
      existingValue ≠ "" ∧ newValue ≠ "" ∧ pyStrip existingValue ≠ pyStrip newValue := by
  unfold flag_discrepancies
  by_cases h : existingValue = "" ∨ newValue = ""
  · rw [if_pos h]
    simp only [Prod.fst]
    constructor
    · intro hf; exact absurd hf (by simp)
    · intro ⟨h1, h2, _⟩; exact absurd h (by tauto)
  · rw [if_neg h]
    push_neg at h
    by_cases h2 : pyStrip existingValue ≠ pyStrip newValue
    · rw [if_pos h2]; simpa using ⟨h.1, h.2, h2⟩
    · rw [if_neg h2]; simp only [Prod.fst]; constructor
      · intro hf; exact absurd hf (by simp)
      · intro hc; exact absurd hc.2.2 h2

/-- Claim C9: category validation is idempotent — applying
`validate_psychologist_type` to the value component of its own output returns
the same (validity, value) pair. -/
theorem c9_psych_type_idempotent (x : String) :
    validate_psychologist_type (validate_psychologist_type x).2 =
      validate_psychologist_type x := by
  rcases vpt_shape x with h | h | h <;> rw [h] <;> decide

/-- Claim C3 (code behavior at the failing inputs): because line 189 parses as
`(len == 10 and startswith "1300") or startswith "1800"`, an 8-digit number
starting 1800 is formatted with the 10-digit grouping (yielding "1800 123 4"
instead of the 8-digit grouping "1800 1234" the claim's table requires), and a
12-digit number starting 1800 is truncated to ten grouped digits instead of
being returned ungrouped. -/
theorem c3_phone_1800_precedence_bug :
    validate_phone "18001234" = (true, "1800 123 4") ∧
    validate_phone "180012345678" = (true, "1800 123 456") := by
  constructor <;> rfl

/-- Claim C4 (counterexample): the input " ABC " does not match the email
shape, yet `validate_email` does not return it unmodified — it returns the
trimmed, lower-cased string "abc". -/
theorem c4_email_counterexample :
    (validate_email " ABC ").1 = false ∧
    (validate_email " ABC ").2 ≠ " ABC " ∧
    (validate_email " ABC ").2 = "abc" := by
  decide

/-- Claim C4 (amended): for every nonempty input string, `validate_email`
returns the trimmed, lower-cased form of the input — in the invalid case as
much as in the valid one — with valid = true exactly when that normalized form
matches the email shape.  (The empty input yields (false, "").) -/
theorem c4_email_amended (email : String) (h : email ≠ "") :
    validate_email email =
      (emailMatch ((trimList email.toList).map Char.toLower),
       String.mk ((trimList email.toList).map Char.toLower)) := by
  simp only [validate_email]
  rw [if_neg h]
  split
  · rename_i hm; rw [hm]
  · rename_i hm
    rw [Bool.not_eq_true] at hm
    rw [hm]

/-- Witness for C4's amended claim at a concrete valid input. -/
theorem c4_email_amended_witness :
    validate_email "Info@Example.COM" = (true, "info@example.com") := by
  rw [c4_email_amended "Info@Example.COM" (by decide)]
  decide

/-- Unfolding of the substring test one character at a time. -/
lemma containsSub_cons (c : Char) (t n : List Char) :
    containsSub (c :: t) n = (n.isPrefixOf (c :: t) || containsSub t n) := by
  rw [containsSub]

/-- The scanning step of `removeWww` when no occurrence starts at the head. -/
lemma removeWww_cons (c : Char) (t : List Char)
    (h : ['w', 'w', 'w', '.'].isPrefixOf (c :: t) = false) :
    removeWww (c :: t) = c :: removeWww t := by
  rw [removeWww.eq_def]
  split
  · rename_i t2 heq
    exfalso
    injection heq with h1 h2
    subst h1; subst h2
    simp [List.isPrefixOf] at h
  · rename_i c2 t2 hne heq
    injection heq with h1 h2
    subst h1; subst h2
    rfl
  · rename_i heq
    exact absurd heq (List.cons_ne_nil c t)

/-- A list with no occurrence of `www.` is unchanged by `removeWww`. -/
lemma removeWww_eq_self (l : List Char) (h : hasWww l = false) : removeWww l = l := by
  induction l using removeWww.induct with
  | case1 t ih =>
    exfalso
    unfold hasWww at h
    rw [containsSub_cons] at h
    rcases Bool.or_eq_false_iff.mp h with ⟨h1, _⟩
    simp [List.isPrefixOf] at h1
  | case2 c t hne ih =>
    unfold hasWww at h ih
    rw [containsSub_cons] at h
    rcases Bool.or_eq_false_iff.mp h with ⟨h1, h2⟩
    rw [removeWww_cons c t h1, ih h2]
  | case3 => rfl

/-- When `www.` occurs at most as the leading prefix, removing every occurrence
agrees with removing the leading occurrence. -/
lemma removeWww_eq_stripLeading (l : List Char)
    (h : hasWww (stripLeadingWww l) = false) : removeWww l = stripLeadingWww l := by
  unfold stripLeadingWww at *
  by_cases hp : ['w', 'w', 'w', '.'].isPrefixOf l
  · rw [if_pos hp] at h ⊢
    obtain ⟨t, rfl⟩ : ∃ t, l = 'w' :: 'w' :: 'w' :: '.' :: t := by
      have := List.isPrefixOf_iff_prefix.mp hp
      obtain ⟨t, ht⟩ := this
      exact ⟨t, ht.symm⟩
    simp only [List.drop_succ_cons, List.drop_zero] at h ⊢
    rw [show removeWww ('w' :: 'w' :: 'w' :: '.' :: t) = removeWww t from rfl]
    exact removeWww_eq_self t h
  · rw [if_neg hp] at h ⊢
    exact removeWww_eq_self l h

/-- Claim C5 (counterexample): the hosts `a.www.com` and `a.com` are unequal
after removing a leading `www.` from each, yet `is_same_domain` reports them
equal, because the code removes every occurrence of `www.`, not only a leading
one. -/
theorem c5_same_domain_counterexample :
    is_same_domain "http://a.www.com" "http://a.com" = true ∧
    stripLeadingWww (urlNetloc "http://a.www.com") ≠
      stripLeadingWww (urlNetloc "http://a.com") := by
  decide

/-- Claim C5 (amended): `is_same_domain` compares the host strings after
removing EVERY occurrence of the substring `www.`; consequently, for URLs
whose hosts contain `www.` at most as a leading prefix, it returns true if
and only if the hosts are equal after removing that leading `www.`. -/
theorem c5_same_domain_amended (url1 url2 : String)
    (h1 : hasWww (stripLeadingWww (urlNetloc url1)) = false)
    (h2 : hasWww (stripLeadingWww (urlNetloc url2)) = false) :
    (is_same_domain url1 url2 = true ↔
      stripLeadingWww (urlNetloc url1) = stripLeadingWww (urlNetloc url2)) := by
  unfold is_same_domain
  rw [removeWww_eq_stripLeading _ h1, removeWww_eq_stripLeading _ h2]
  exact decide_eq_true_iff

/-- Witness for C5's amended claim at concrete same-domain URLs. -/
theorem c5_same_domain_amended_witness :
    is_same_domain "http://www.b.org" "https://b.org/page" = true :=
  (c5_same_domain_amended "http://www.b.org" "https://b.org/page"
    (by decide) (by decide)).mpr (by decide)

/-- Claim C7: `fetch_url` on a URL lacking a scheme or a network location
fails immediately with no GET issued; on a valid URL, status 200 on the first
GET yields success with the body after one GET, status 404 yields failure
after exactly one GET with no retry, and when every attempt hits another
status or a network-level error the call issues exactly the fixed maximum of
3 GETs and then fails. -/
theorem c7_fetch_url_retry (outcomes : Nat → FetchOutcome) (url : String) :
    (is_valid_url url = false → fetch_url outcomes url 3 = ((false, none), 0))
  ∧ (∀ b, is_valid_url url = true → outcomes 0 = FetchOutcome.success b →
      fetch_url outcomes url 3 = ((true, some b), 1))
  ∧ (is_valid_url url = true → outcomes 0 = FetchOutcome.notFound →
      fetch_url outcomes url 3 = ((false, none), 1))
  ∧ (is_valid_url url = true →
      (∀ i, i < 3 → outcomes i = FetchOutcome.otherStatus ∨ outcomes i = FetchOutcome.netError) →
      fetch_url outcomes url 3 = ((false, none), 3)) := by
  refine ⟨?_, ?_, ?_, ?_⟩
  · intro h; simp [fetch_url, h]
  · intro b h h0
    simp [fetch_url, h, show (3 : Nat) = 2 + 1 from rfl, fetchLoop, h0]
  · intro h h0
    simp [fetch_url, h, show (3 : Nat) = 2 + 1 from rfl, fetchLoop, h0]
  · intro h hall
    have h0 := hall 0 (by omega)
    have h1 := hall 1 (by omega)
    have h2 := hall 2 (by omega)
    simp only [fetch_url, h, if_pos]
    rw [show (3 : Nat) = 2 + 1 from rfl]
    rcases h0 with h0 | h0 <;> rcases h1 with h1 | h1 <;> rcases h2 with h2 | h2 <;>
      simp [fetchLoop, h0, h1, h2]

/-- Witness for C7 at concrete URLs and outcome oracles: all four cases. -/
theorem c7_fetch_url_retry_witness :
    fetch_url (fun _ => FetchOutcome.otherStatus) "http://example.com" 3 = ((false, none), 3)
  ∧ fetch_url (fun _ => FetchOutcome.notFound) "http://example.com" 3 = ((false, none), 1)
  ∧ fetch_url (fun _ => FetchOutcome.success "BODY") "http://example.com" 3 = ((true, some "BODY"), 1)
  ∧ fetch_url (fun _ => FetchOutcome.success "BODY") "example.com" 3 = ((false, none), 0) :=
  ⟨(c7_fetch_url_retry _ _).2.2.2 (by decide) (fun i _ => Or.inl rfl),
   (c7_fetch_url_retry _ _).2.2.1 (by decide) rfl,
   (c7_fetch_url_retry _ _).2.1 "BODY" (by decide) rfl,
   (c7_fetch_url_retry _ _).1 (by decide)⟩

/-- The phone pre-pass touches no field other than the phone cell. -/
lemma phoneFix_fields (r : Row) :
    (phoneFix r).practice = r.practice ∧ (phoneFix r).address = r.address ∧
    (phoneFix r).website = r.website ∧ (phoneFix r).name = r.name ∧
    (phoneFix r).email = r.email ∧ (phoneFix r).doctors = r.doctors ∧
    (phoneFix r).ptype = r.ptype ∧ (phoneFix r).initialConsult = r.initialConsult ∧
    (phoneFix r).followupConsult = r.followupConsult ∧ (phoneFix r).date = r.date ∧
    (phoneFix r).notes = r.notes := by
  unfold phoneFix
  split <;> simp

/-- Row processing never rewrites the identity column. -/
lemma processRow_practice (today : String) (ex : List (String × PracticeVal)) (r : Row) :
    (processRow today ex r).1.practice = r.practice := by
  simp only [processRow]
  split
  · rfl
  · split
    · rfl
    · split
      · simp
      · split
        · simp [mainFieldRow]
        · simp [firstPsychRow, mainFieldRow]

/-- The updated-row component of the loop is a per-row map. -/
lemma processAll_fst (today : String) (ex : List (String × PracticeVal)) :
    ∀ (n : Nat) (l : List Row),
      (processAll today ex n l).1 = l.map (fun r => (processRow today ex r).1)
  | _, [] => rfl
  | n, r :: rs => by
    simp only [processAll, List.map_cons]
    rw [processAll_fst today ex (n + 1) rs]

/-- A skipped row (falsy practice name, or no matching candidate) passes
through row processing entirely unchanged. -/
lemma processRow_skip (today : String) (ex : List (String × PracticeVal)) (snap : Row)
    (h : snap.practice = "" ∨ lookupPractice ex snap.practice = none) :
    processRow today ex snap = (snap, [], []) := by
  simp only [processRow]
  by_cases h1 : snap.practice = ""
  · rw [if_pos h1]
  · rw [if_neg h1]
    rcases h with h | h
    · exact absurd h h1
    · rw [h]

/-- An error candidate only rewrites the notes cell. -/
lemma processRow_error (today : String) (ex : List (String × PracticeVal)) (snap : Row)
    (pv : PracticeVal) (e : String)
    (h1 : snap.practice ≠ "") (h2 : lookupPractice ex snap.practice = some pv)
    (h3 : (resolvePVal pv).error = some e) :
    processRow today ex snap = ({ snap with notes := "Extraction error: " ++ e }, [], []) := by
  simp only [processRow]
  rw [if_neg h1, h2]
  simp only [h3]

/-- The expansion rows of a matched, error-free candidate are the clones of the
staff list's tail, in staff-list order. -/
lemma processRow_newRows (today : String) (ex : List (String × PracticeVal)) (snap : Row)
    (pv : PracticeVal)
    (h1 : snap.practice ≠ "") (h2 : lookupPractice ex snap.practice = some pv)
    (herr : (resolvePVal pv).error = none) :
    (processRow today ex snap).2.1 =
      (resolvePVal pv).psychologists.tail.map (cloneRow today snap (resolvePVal pv)) := by
  simp only [processRow]
  rw [if_neg h1, h2]
  simp only [herr]
  cases hp : (resolvePVal pv).psychologists with
  | nil => simp
  | cons p rest => simp

/-- A clone keeps the snapshot's practice, address, website and phone cells. -/
lemma cloneRow_fields (today : String) (snap : Row) (pd : PracticeData) (p : Psych) :
    (cloneRow today snap pd p).practice = snap.practice ∧
    (cloneRow today snap pd p).address = snap.address ∧
    (cloneRow today snap pd p).website = snap.website ∧
    (cloneRow today snap pd p).phone = snap.phone := by
  simp [cloneRow]

/-- A clone carries the normalized candidate email when it is present and
valid. -/
lemma cloneRow_email (today : String) (snap : Row) (pd : PracticeData) (p : Psych)
    (h1 : pd.email ≠ "") (h2 : (validate_email pd.email).1 = true) :
    (cloneRow today snap pd p).email = (validate_email pd.email).2 := by
  simp only [cloneRow]
  rw [if_pos ⟨h1, h2⟩]

/-- A clone carries the normalized candidate doctor-page URL when it is present
and valid. -/
lemma cloneRow_doctors (today : String) (snap : Row) (pd : PracticeData) (p : Psych)
    (h1 : pd.doctorPageUrl ≠ "") (h2 : (validate_url pd.doctorPageUrl).1 = true) :
    (cloneRow today snap pd p).doctors = (validate_url pd.doctorPageUrl).2 := by
  simp only [cloneRow]
  rw [if_pos ⟨h1, h2⟩]

/-- The expansion-row component of the loop is the input-order concatenation
of each row's expansion rows. -/
lemma processAll_newRows (today : String) (ex : List (String × PracticeVal)) :
    ∀ (n : Nat) (l : List Row),
      (processAll today ex n l).2.1 = l.flatMap (fun r => (processRow today ex r).2.1)
  | _, [] => rfl
  | n, r :: rs => by
    simp only [processAll, List.flatMap_cons]
    rw [processAll_newRows today ex (n + 1) rs]

/-- Claim C10: reconciliation never deletes or reorders existing rows — the
updated table has exactly as many rows as the input, in the same order, with
the same Practice identity cell in every position — and expansion clones
exist only in the separately returned new-rows list, which is the input-order
concatenation of one block per existing row: the empty block for a skipped
row (falsy or unmatched practice name) or an error candidate, and, for a
matched error-free candidate, exactly one clone of that row per additional
staff member, in staff-list order. -/
theorem c10_rows_preserved (today : String) (df : List Row)
    (ex : List (String × PracticeVal)) :
    (format_data_for_excel today df ex).1.length = df.length
  ∧ (format_data_for_excel today df ex).1.map Row.practice = df.map Row.practice
  ∧ (format_data_for_excel today df ex).2.1 =
      df.flatMap (fun r => (processRow today ex (phoneFix r)).2.1)
  ∧ (∀ r : Row, (r.practice = "" ∨ lookupPractice ex r.practice = none) →
      (processRow today ex (phoneFix r)).2.1 = [])
  ∧ (∀ (r : Row) (pv : PracticeVal) (e : String), r.practice ≠ "" →
      lookupPractice ex r.practice = some pv → (resolvePVal pv).error = some e →
      (processRow today ex (phoneFix r)).2.1 = [])
  ∧ (∀ (r : Row) (pv : PracticeVal), r.practice ≠ "" →
      lookupPractice ex r.practice = some pv → (resolvePVal pv).error = none →
      (processRow today ex (phoneFix r)).2.1 =
        ((resolvePVal pv).psychologists.tail).map
          (cloneRow today (phoneFix r) (resolvePVal pv))) := by
  refine ⟨?_, ?_, ?_, ?_, ?_, ?_⟩
  · unfold format_data_for_excel
    rw [processAll_fst]
    simp
  · unfold format_data_for_excel
    rw [processAll_fst, List.map_map, List.map_map]
    apply List.map_congr_left
    intro r _
    simp only [Function.comp_apply]
    rw [processRow_practice, (phoneFix_fields r).1]
  · unfold format_data_for_excel
    rw [processAll_newRows, List.flatMap_map]
  · intro r h
    rw [processRow_skip today ex (phoneFix r) (by rw [(phoneFix_fields r).1]; exact h)]
  · intro r pv e hne hlk herr
    rw [processRow_error today ex (phoneFix r) pv e (by rw [(phoneFix_fields r).1]; exact hne)
      (by rw [(phoneFix_fields r).1]; exact hlk) herr]
  · intro r pv hne hlk herr
    exact processRow_newRows today ex (phoneFix r) pv
      (by rw [(phoneFix_fields r).1]; exact hne) (by rw [(phoneFix_fields r).1]; exact hlk) herr

/-- The updated table, row by row. -/
lemma format_fst_get (today : String) (df : List Row) (ex : List (String × PracticeVal))
    (i : Nat) (r : Row) (hr : df[i]? = some r) :
    (format_data_for_excel today df ex).1[i]? =
      some ((processRow today ex (phoneFix r)).1) := by
  unfold format_data_for_excel
  rw [processAll_fst]
  rw [List.getElem?_map, List.getElem?_map, hr]
  rfl

/-- Concrete row for the C6 counterexample: a practice with a raw mobile number
and no matching candidate. -/
def rowC6 : Row :=
  { practice := "Acme Psychology", address := "1 A St, Brisbane QLD 4000",
    website := "http://acme.com", phone := "0412345678", name := "", email := "",
    doctors := "", ptype := "", initialConsult := "", followupConsult := "",
    date := "", notes := "" }

/-- Claim C6 (counterexample): for a record with no matching candidate the code
neither leaves every non-notes field unchanged (the phone pre-pass rewrites
the Phone cell of every row) nor updates the notes field (the row is skipped
with `continue`, leaving notes empty). -/
theorem c6_unmatched_counterexample :
    (format_data_for_excel "2025-01-01" [rowC6] []).1.map Row.phone = ["0412 345 678"] ∧
    rowC6.phone = "0412345678" ∧
    (format_data_for_excel "2025-01-01" [rowC6] []).1.map Row.notes = [""] := by
  decide

/-- Claim C6 (amended): an existing record whose identity has no matching
candidate is left with every field unchanged except the Phone cell, which the
phone pre-pass rewrites to canonical phone format, and in particular its notes
field is NOT updated; a record whose candidate signals an error additionally
gets only its notes field set to "Extraction error: <error>"; all other
fields stay untouched (again up to the Phone canonicalization). -/
theorem c6_unmatched_row_frame (today : String) (df : List Row)
    (ex : List (String × PracticeVal)) (i : Nat) (r : Row) (hr : df[i]? = some r) :
    ((r.practice = "" ∨ lookupPractice ex r.practice = none) →
      ∃ r2, (format_data_for_excel today df ex).1[i]? = some r2 ∧
        r2.practice = r.practice ∧ r2.address = r.address ∧ r2.website = r.website ∧
        r2.name = r.name ∧ r2.email = r.email ∧ r2.doctors = r.doctors ∧
        r2.ptype = r.ptype ∧ r2.initialConsult = r.initialConsult ∧
        r2.followupConsult = r.followupConsult ∧ r2.date = r.date ∧
        r2.notes = r.notes ∧ r2.phone = (phoneFix r).phone)
  ∧ (∀ pv e, r.practice ≠ "" → lookupPractice ex r.practice = some pv →
      (resolvePVal pv).error = some e →
      ∃ r2, (format_data_for_excel today df ex).1[i]? = some r2 ∧
        r2.practice = r.practice ∧ r2.address = r.address ∧ r2.website = r.website ∧
        r2.name = r.name ∧ r2.email = r.email ∧ r2.doctors = r.doctors ∧
        r2.ptype = r.ptype ∧ r2.initialConsult = r.initialConsult ∧
        r2.followupConsult = r.followupConsult ∧ r2.date = r.date ∧
        r2.notes = "Extraction error: " ++ e ∧ r2.phone = (phoneFix r).phone) := by
  obtain ⟨hpr, had, hwe, hna, hem, hdo, hty, hic, hfc, hda, hno⟩ := phoneFix_fields r
  constructor
  · intro h
    refine ⟨(processRow today ex (phoneFix r)).1, format_fst_get today df ex i r hr, ?_⟩
    rw [processRow_skip today ex (phoneFix r) (by rw [hpr]; exact h)]
    exact ⟨hpr, had, hwe, hna, hem, hdo, hty, hic, hfc, hda, hno, rfl⟩
  · intro pv e hne hlk herr
    refine ⟨(processRow today ex (phoneFix r)).1, format_fst_get today df ex i r hr, ?_⟩
    rw [processRow_error today ex (phoneFix r) pv e (by rw [hpr]; exact hne)
      (by rw [hpr]; exact hlk) herr]
    exact ⟨hpr, had, hwe, hna, hem, hdo, hty, hic, hfc, hda, rfl, rfl⟩

/-- Witness for C6's amended claim: a one-row table whose practice has no
candidate, and a one-row table whose candidate carries an error. -/
theorem c6_unmatched_row_frame_witness :
    (∃ r2, (format_data_for_excel "d" [rowC6] []).1[0]? = some r2 ∧
      r2.practice = rowC6.practice ∧ r2.address = rowC6.address ∧
      r2.website = rowC6.website ∧ r2.name = rowC6.name ∧ r2.email = rowC6.email ∧
      r2.doctors = rowC6.doctors ∧ r2.ptype = rowC6.ptype ∧
      r2.initialConsult = rowC6.initialConsult ∧
      r2.followupConsult = rowC6.followupConsult ∧ r2.date = rowC6.date ∧
      r2.notes = rowC6.notes ∧ r2.phone = (phoneFix rowC6).phone)
  ∧ (∃ r2, (format_data_for_excel "d" [rowC6]
        [("Acme Psychology", PracticeVal.list [])]).1[0]? = some r2 ∧
      r2.practice = rowC6.practice ∧ r2.address = rowC6.address ∧
      r2.website = rowC6.website ∧ r2.name = rowC6.name ∧ r2.email = rowC6.email ∧
      r2.doctors = rowC6.doctors ∧ r2.ptype = rowC6.ptype ∧
      r2.initialConsult = rowC6.initialConsult ∧
      r2.followupConsult = rowC6.followupConsult ∧ r2.date = rowC6.date ∧
      r2.notes = "Extraction error: " ++ "Empty list for practice data" ∧
      r2.phone = (phoneFix rowC6).phone) :=
  ⟨(c6_unmatched_row_frame "d" [rowC6] [] 0 rowC6 rfl).1 (Or.inr rfl),
   (c6_unmatched_row_frame "d" [rowC6] [("Acme Psychology", PracticeVal.list [])] 0 rowC6
      rfl).2 (PracticeVal.list []) "Empty list for practice data" (by decide) rfl rfl⟩

/-- Concrete one-row table and 3-staff candidate for claim C1. -/
def rowC1 : Row :=
  { practice := "Wisemind Psychology",
    address := "Unit 2/40 Minchinton St, Caloundra QLD 4551",
    website := "http://www.wisemind.com.au", phone := "0490193347", name := "",
    email := "", doctors := "", ptype := "", initialConsult := "",
    followupConsult := "", date := "", notes := "" }

/-- The candidate record of the C1 scenario. -/
def pdC1 : PracticeData :=
  { error := none, email := "admin@wisemind.com.au",
    doctorPageUrl := "http://www.wisemind.com.au/team",
    pricingInfo := { initialConsult := "$220", followupConsult := "$180" },
    psychologists := [{ name := "Jane Smith", ptype := "Clinical Psychologist" },
                      { name := "John Doe", ptype := "General" },
                      { name := "Amy Lee", ptype := "C" }] }

/-- Claim C1 (counterexample): reconciling a 3-staff candidate against one
existing row does produce 2 new rows, but they do not carry the existing row's
phone value verbatim — the phone pre-pass rewrites "0490193347" to
"0490 193 347" before the row snapshot is cloned. -/
theorem c1_clone_phone_counterexample :
    (format_data_for_excel "2025-04-01" [rowC1]
        [("Wisemind Psychology", PracticeVal.dict pdC1)]).2.1.map Row.phone =
      ["0490 193 347", "0490 193 347"] ∧
    rowC1.phone = "0490193347" := by
  decide

/-- Claim C1 (amended): reconciling a candidate having exactly 3 staff entries
against exactly 1 existing row produces exactly 2 new rows; each new row
carries the existing row's address and website values verbatim, carries the
existing row's phone after the canonical phone-formatting pre-pass (verbatim
only when the phone cell is empty, invalid, or already canonical), and, when
the candidate's email and doctor-page URL are valid after normalization,
carries those normalized values. -/
theorem c1_expansion_rows (today : String) (ex : List (String × PracticeVal))
    (row : Row) (pv : PracticeVal) (p1 p2 p3 : Psych)
    (hne : row.practice ≠ "")
    (hlk : lookupPractice ex row.practice = some pv)
    (herr : (resolvePVal pv).error = none)
    (hps : (resolvePVal pv).psychologists = [p1, p2, p3]) :
    (format_data_for_excel today [row] ex).2.1.length = 2 ∧
    ∀ r2 ∈ (format_data_for_excel today [row] ex).2.1,
      r2.address = row.address ∧ r2.website = row.website ∧
      r2.phone = (phoneFix row).phone ∧
      ((resolvePVal pv).email ≠ "" → (validate_email (resolvePVal pv).email).1 = true →
        r2.email = (validate_email (resolvePVal pv).email).2) ∧
      ((resolvePVal pv).doctorPageUrl ≠ "" →
        (validate_url (resolvePVal pv).doctorPageUrl).1 = true →
        r2.doctors = (validate_url (resolvePVal pv).doctorPageUrl).2) := by
  have hf := phoneFix_fields row
  have hnew : (format_data_for_excel today [row] ex).2.1 =
      (processRow today ex (phoneFix row)).2.1 := by
    unfold format_data_for_excel
    simp [processAll]
  rw [hnew, processRow_newRows today ex (phoneFix row) pv
    (by rw [hf.1]; exact hne) (by rw [hf.1]; exact hlk) herr, hps]
  constructor
  · rfl
  · intro r2 hm
    simp only [List.tail_cons, List.map_cons, List.map_nil, List.mem_cons,
      List.not_mem_nil, or_false] at hm
    rcases hm with rfl | rfl <;>
      exact ⟨by rw [(cloneRow_fields _ _ _ _).2.1, hf.2.1],
             by rw [(cloneRow_fields _ _ _ _).2.2.1, hf.2.2.1],
             (cloneRow_fields _ _ _ _).2.2.2,
             fun h1 h2 => cloneRow_email _ _ _ _ h1 h2,
             fun h1 h2 => cloneRow_doctors _ _ _ _ h1 h2⟩

/-- Witness for C1's amended claim at the concrete Wisemind scenario. -/
theorem c1_expansion_rows_witness :
    (format_data_for_excel "2025-04-01" [rowC1]
        [("Wisemind Psychology", PracticeVal.dict pdC1)]).2.1.length = 2 :=
  (c1_expansion_rows "2025-04-01" [("Wisemind Psychology", PracticeVal.dict pdC1)]
    rowC1 (PracticeVal.dict pdC1)
    { name := "Jane Smith", ptype := "Clinical Psychologist" }
    { name := "John Doe", ptype := "General" }
    { name := "Amy Lee", ptype := "C" }
    (by decide) (by decide) rfl rfl).1

/-! ## Supporting lemmas for the address claim -/

/-- An ASCII digit is not whitespace. -/
lemma isDigit_not_ws (c : Char) (h : c.isDigit = true) : isWS c = false := by
  by_contra hne
  rw [Bool.not_eq_false] at hne
  have hc : ((c = ' ' ∨ c = '\t') ∨ c = '\r') ∨ c = '\n' := by
    simpa [isWS, Char.isWhitespace] using hne
  rcases hc with ((rfl | rfl) | rfl) | rfl <;> simp [Char.isDigit] at h

/-- An ASCII letter is not whitespace. -/
lemma isLetter_not_ws (c : Char) (h : isAsciiLetter c = true) : isWS c = false := by
  by_contra hne
  rw [Bool.not_eq_false] at hne
  have hc : ((c = ' ' ∨ c = '\t') ∨ c = '\r') ∨ c = '\n' := by
    simpa [isWS, Char.isWhitespace] using hne
  rcases hc with ((rfl | rfl) | rfl) | rfl <;> simp [isAsciiLetter] at h

/-- An ASCII letter is not a digit. -/
lemma isLetter_not_digit (c : Char) (h : isAsciiLetter c = true) : c.isDigit = false := by
  have hl : ('A' ≤ c ∧ c ≤ 'Z') ∨ ('a' ≤ c ∧ c ≤ 'z') := by
    simpa [isAsciiLetter] using h
  by_contra hd
  rw [Bool.not_eq_false] at hd
  have hd2 : '0' ≤ c ∧ c ≤ '9' := by simpa [Char.isDigit] using hd
  rcases hl with ⟨hA, _⟩ | ⟨hA, _⟩ <;>
  · have hle := le_trans hA hd2.2
    rw [Char.le_def] at hle
    exact absurd hle (by decide)

/-- `takeWhile` over a run that the next element terminates. -/
lemma takeWhile_append_stop (p : Char → Bool) (A : List Char) (b : Char) (B : List Char)
    (hA : ∀ c ∈ A, p c = true) (hb : p b = false) :
    (A ++ b :: B).takeWhile p = A := by
  induction A with
  | nil => simp [List.takeWhile_cons, hb]
  | cons a t ih =>
    rw [List.cons_append, List.takeWhile_cons, if_pos (hA a (by simp))]
    rw [ih (fun c hc => hA c (by simp [hc]))]

/-- A string whose first and last characters are not whitespace is unchanged
by stripping. -/
lemma trimList_eq_self (l : List Char)
    (h1 : ∀ c, l.head? = some c → isWS c = false)
    (h2 : ∀ c, l.getLast? = some c → isWS c = false) :
    trimList l = l := by
  unfold trimList
  have e1 : l.dropWhile isWS = l := by
    cases l with
    | nil => rfl
    | cons a t => rw [List.dropWhile_cons, if_neg (by simp [h1 a rfl])]
  rw [e1]
  have e2 : l.reverse.dropWhile isWS = l.reverse := by
    cases hr : l.reverse with
    | nil => rfl
    | cons a t =>
      have ha : l.getLast? = some a := by
        rw [← List.head?_reverse, hr]; rfl
      rw [List.dropWhile_cons, if_neg (by simp [h2 a ha])]
  rw [e2, List.reverse_reverse]

/-- The `\s+(.+)$` step on a single space followed by the claim-shaped rest. -/
lemma unitMatchSpace_shaped (rest : List Char) (hrest : rest ≠ [])
    (hrhead : ∀ c, rest.head? = some c → isWS c = false)
    (hnl : rest.contains '\n' = false) :
    unitMatchSpace (' ' :: rest) = some rest := by
  simp only [unitMatchSpace]
  have hws : (' ' :: rest).takeWhile isWS = [' '] := by
    cases rest with
    | nil => exact absurd rfl hrest
    | cons r0 t =>
      rw [List.takeWhile_cons, if_pos (by decide), List.takeWhile_cons,
        if_neg (by simp [hrhead r0 rfl])]
  rw [hws]
  rw [if_neg (by simp)]
  simp only [List.length_cons, List.length_nil, List.drop_succ_cons, List.drop_zero]
  rw [if_neg]
  simp only [Bool.or_eq_true, List.isEmpty_eq_true, hnl]
  push_neg
  exact ⟨hrest, by simp⟩

/-- The `(\d+(?:[A-Za-z])?)\s+(.+)$` step on the claim-shaped remainder. -/
lemma unitMatchNum_shaped (n2 L2 rest : List Char)
    (hn2 : n2 ≠ [] ∧ ∀ c ∈ n2, c.isDigit = true)
    (hL2 : L2 = [] ∨ ∃ c, L2 = [c] ∧ isAsciiLetter c = true)
    (hrest : rest ≠ [])
    (hrhead : ∀ c, rest.head? = some c → isWS c = false)
    (hnl : rest.contains '\n' = false) :
    unitMatchNum (n2 ++ L2 ++ ' ' :: rest) = some (n2 ++ L2, rest) := by
  simp only [unitMatchNum]
  rcases hL2 with rfl | ⟨c, rfl, hc⟩
  · rw [List.append_nil]
    have hds : (n2 ++ ' ' :: rest).takeWhile isDigitChar = n2 :=
      takeWhile_append_stop isDigitChar n2 ' ' rest (fun x hx => hn2.2 x hx) (by decide)
    rw [hds, if_neg (by simp [hn2.1]), List.drop_left]
    dsimp only
    rw [if_neg (by decide), unitMatchSpace_shaped rest hrest hrhead hnl]
  · rw [show n2 ++ [c] ++ ' ' :: rest = n2 ++ c :: ' ' :: rest by
      rw [List.append_assoc]; rfl]
    have hds : (n2 ++ c :: ' ' :: rest).takeWhile isDigitChar = n2 :=
      takeWhile_append_stop isDigitChar n2 c (' ' :: rest) (fun x hx => hn2.2 x hx)
        (isLetter_not_digit c hc)
    rw [hds, if_neg (by simp [hn2.1]), List.drop_left]
    dsimp only
    rw [if_pos hc, unitMatchSpace_shaped rest hrest hrhead hnl]

/-- The `[\dA-Za-z]+[\/\\]` core step on the claim-shaped input with the unit
prefix already consumed. -/
lemma unitMatchCore_shaped (n1 L1 n2 L2 rest : List Char) (sep : Char)
    (hn1 : n1 ≠ [] ∧ ∀ c ∈ n1, c.isDigit = true)
    (hL1 : L1 = [] ∨ ∃ c, L1 = [c] ∧ isAsciiLetter c = true)
    (hsep : sep = '/' ∨ sep = '\\')
    (hn2 : n2 ≠ [] ∧ ∀ c ∈ n2, c.isDigit = true)
    (hL2 : L2 = [] ∨ ∃ c, L2 = [c] ∧ isAsciiLetter c = true)
    (hrest : rest ≠ [])
    (hrhead : ∀ c, rest.head? = some c → isWS c = false)
    (hnl : rest.contains '\n' = false) :
    unitMatchCore ((n1 ++ L1) ++ sep :: (n2 ++ L2 ++ ' ' :: rest)) =
      some (n2 ++ L2, rest) := by
  simp only [unitMatchCore]
  have hsepa : isAlnumAscii sep = false := by
    rcases hsep with rfl | rfl <;> decide
  have hall : ∀ c ∈ n1 ++ L1, isAlnumAscii c = true := by
    intro x hx
    rcases List.mem_append.mp hx with hx | hx
    · simp [isAlnumAscii, hn1.2 x hx]
    · rcases hL1 with rfl | ⟨c, rfl, hc⟩
      · simp at hx
      · simp at hx
        subst hx
        simp [isAlnumAscii, hc]
  have hrun : ((n1 ++ L1) ++ sep :: (n2 ++ L2 ++ ' ' :: rest)).takeWhile isAlnumAscii
      = n1 ++ L1 :=
    takeWhile_append_stop isAlnumAscii (n1 ++ L1) sep _ hall hsepa
  rw [hrun, if_neg (by simp [hn1.1]), List.drop_left]
  dsimp only
  rw [if_pos (show isSlash sep = true by rcases hsep with rfl | rfl <;> decide)]
  exact unitMatchNum_shaped n2 L2 rest hn2 hL2 hrest hrhead hnl

/-- The unit pattern on a claim-shaped address: it matches, group 2 is the
post-slash building number (with its optional letter) and group 3 is the rest. -/
lemma unitMatch_shaped (u n1 L1 n2 L2 rest : List Char) (sep : Char)
    (hu : u = "Unit ".toList ∨ u = [])
    (hn1 : n1 ≠ [] ∧ ∀ c ∈ n1, c.isDigit = true)
    (hL1 : L1 = [] ∨ ∃ c, L1 = [c] ∧ isAsciiLetter c = true)
    (hsep : sep = '/' ∨ sep = '\\')
    (hn2 : n2 ≠ [] ∧ ∀ c ∈ n2, c.isDigit = true)
    (hL2 : L2 = [] ∨ ∃ c, L2 = [c] ∧ isAsciiLetter c = true)
    (hrest : rest ≠ [])
    (hrhead : ∀ c, rest.head? = some c → isWS c = false)
    (hnl : rest.contains '\n' = false) :
    unitMatch (u ++ ((n1 ++ L1) ++ sep :: (n2 ++ L2 ++ ' ' :: rest))) =
      some (n2 ++ L2, rest) := by
  have hcore := unitMatchCore_shaped n1 L1 n2 L2 rest sep hn1 hL1 hsep hn2 hL2
    hrest hrhead hnl
  obtain ⟨d, n1t, rfl⟩ : ∃ d n1t, n1 = d :: n1t := by
    cases n1 with
    | nil => exact absurd rfl hn1.1
    | cons d t => exact ⟨d, t, rfl⟩
  have hd : d.isDigit = true := hn1.2 d (by simp)
  rcases hu with rfl | rfl
  · show unitMatch ('U' :: 'n' :: 'i' :: 't' :: ' ' ::
      (((d :: n1t) ++ L1) ++ sep :: (n2 ++ L2 ++ ' ' :: rest))) = some (n2 ++ L2, rest)
    simp only [unitMatch]
    have hws : (' ' :: (((d :: n1t) ++ L1) ++ sep :: (n2 ++ L2 ++ ' ' :: rest))).takeWhile
        isWS = [' '] := by
      rw [List.takeWhile_cons, if_pos (by decide), List.cons_append, List.cons_append,
        List.takeWhile_cons, if_neg (by simp [isDigit_not_ws d hd])]
    rw [hws]
    rw [if_neg (by simp)]
    simp only [List.length_cons, List.length_nil, List.drop_succ_cons, List.drop_zero]
    rw [hcore]
  · rw [List.nil_append]
    rw [unitMatch.eq_def]
    split
    · rename_i rest2 heq
      exfalso
      rw [List.cons_append, List.cons_append] at heq
      injection heq with h1 _
      rw [h1] at hd
      simp [Char.isDigit] at hd
    · exact hcore

/-- A found postcode is a 4-digit run. -/
lemma pc4At_spec (bef : Option Char) (l pc : List Char) (h : pc4At bef l = some pc) :
    pc.length = 4 ∧ ∀ c ∈ pc, c.isDigit = true := by
  unfold pc4At at h
  split at h
  · rename_i a b c d rest
    split at h
    · rename_i hcond
      injection h with h
      subst h
      simp only [Bool.and_eq_true] at hcond
      refine ⟨rfl, ?_⟩
      intro x hx
      simp only [List.mem_cons, List.not_mem_nil, or_false] at hx
      rcases hx with rfl | rfl | rfl | rfl
      · exact hcond.1.1.1.1.1
      · exact hcond.1.1.1.1.2
      · exact hcond.1.1.1.2
      · exact hcond.1.1.2
    · exact absurd h (by simp)
  · exact absurd h (by simp)

/-- The postcode search only ever returns a 4-digit run. -/
lemma postcodeSearch_spec (l : List Char) :
    ∀ (bef : Option Char) (pc : List Char), postcodeSearch bef l = some pc →
      pc.length = 4 ∧ ∀ c ∈ pc, c.isDigit = true := by
  induction l with
  | nil => intro bef pc h; simp [postcodeSearch] at h
  | cons c t ih =>
    intro bef pc h
    rw [postcodeSearch] at h
    cases hp : pc4At bef (c :: t) with
    | some pc2 =>
      rw [hp] at h
      injection h with h
      exact h ▸ pc4At_spec bef (c :: t) pc2 hp
    | none =>
      rw [hp] at h
      exact ih (some c) pc h

/-- Comma-freeness gives elementwise disequality. -/
lemma contains_false_forall (l : List Char) (a : Char) (h : l.contains a = false) :
    ∀ c ∈ l, c ≠ a := by
  intro c hc heq
  subst heq
  have hmem : l.contains c = true := List.contains_iff_exists_mem_beq.mpr ⟨c, hc, by simp⟩
  rw [h] at hmem
  exact Bool.false_ne_true hmem

/-- First-comma decomposition of a list containing a comma. -/
lemma exists_comma_split (l : List Char) (h : l.contains ',' = true) :
    ∃ A B, l = A ++ ',' :: B ∧ A.contains ',' = false := by
  induction l with
  | nil => simp at h
  | cons c t ih =>
    by_cases hc : c = ','
    · exact ⟨[], t, by rw [hc, List.nil_append], by simp⟩
    · have ht : t.contains ',' = true := by
        rw [List.contains_cons] at h
        rcases Bool.or_eq_true_iff.mp h with h2 | h2
        · exact absurd (Eq.symm (by simpa using h2)) hc
        · exact h2
      obtain ⟨A, B, rfl, hA⟩ := ih ht
      refine ⟨c :: A, B, by rw [List.cons_append], ?_⟩
      rw [List.contains_cons, Bool.or_eq_false_iff]
      exact ⟨by simpa using fun h2 => hc h2.symm, hA⟩

/-- The post-comma tail produced by the best-effort rebuild — a single space,
a state code, a space and a 4-digit postcode — never matches the common tail
`\s+[\w\s]+\s+[A-Z]{2,3}\s+\d{4,5}$` of the two address patterns: the
`[A-Z]{2,3}` block and the mandatory `\s+[\w\s]+\s+` before it do not fit
between the leading space and the postcode. -/
lemma tailY_state_false (st pc : List Char) (hst : st ∈ auStates)
    (hpc4 : pc.length = 4) (hpcd : ∀ c ∈ pc, c.isDigit = true) :
    tailYRev ((' ' :: (st ++ ' ' :: pc)).reverse) = false := by
  have hrev : (' ' :: (st ++ ' ' :: pc)).reverse =
      pc.reverse ++ ' ' :: (st.reverse ++ [' ']) := by
    simp [List.reverse_cons, List.reverse_append, List.append_assoc]
  rw [hrev]
  simp only [tailYRev]
  have hds : (pc.reverse ++ ' ' :: (st.reverse ++ [' '])).takeWhile isDigitChar
      = pc.reverse :=
    takeWhile_append_stop isDigitChar pc.reverse ' ' (st.reverse ++ [' '])
      (fun c hc => hpcd c (List.mem_reverse.mp hc)) (by decide)
  rw [hds, List.drop_left]
  have h2 : tailYRev2 (' ' :: (st.reverse ++ [' '])) = false := by
    simp only [auStates, List.mem_cons, List.not_mem_nil, or_false] at hst
    rcases hst with rfl | rfl | rfl | rfl | rfl | rfl | rfl | rfl <;> decide
  rw [h2, Bool.and_false]

/-- Neither address pattern matches a string of the form `X,T` when the tail
matcher rejects `T`: when `X` is comma-free the tail check fails, and when `X`
contains a comma the post-first-comma part contains a second comma, which no
character class of either pattern admits. -/
lemma matchP_false_with_comma_tail (street1 T : List Char)
    (htail : tailYRev T.reverse = false) :
    matchP1 (street1 ++ ',' :: T) = false ∧ matchP2 (street1 ++ ',' :: T) = false := by
  by_cases hc : street1.contains ',' = true
  · obtain ⟨A, B, rfl, hA⟩ := exists_comma_split street1 hc
    have hL : (A ++ ',' :: B) ++ ',' :: T = A ++ ',' :: (B ++ ',' :: T) := by
      rw [List.append_assoc]; rfl
    rw [hL]
    have hx : (A ++ ',' :: (B ++ ',' :: T)).takeWhile (fun c => c ≠ ',') = A :=
      takeWhile_append_stop _ A ',' _ (fun c hc2 => by
        simp only [decide_eq_true_eq]
        exact contains_false_forall A ',' hA c hc2) (by simp)
    have hcont : (B ++ ',' :: T).contains ',' = true :=
      List.contains_iff_exists_mem_beq.mpr ⟨',', by simp, by simp⟩
    constructor
    · simp only [matchP1, hx, List.drop_left]
      rw [hcont]
      simp
    · simp only [matchP2, hx, List.drop_left]
      rw [hcont]
      simp
  · rw [Bool.not_eq_true] at hc
    have hx : (street1 ++ ',' :: T).takeWhile (fun c => c ≠ ',') = street1 :=
      takeWhile_append_stop _ street1 ',' T (fun c hc2 => by
        simp only [decide_eq_true_eq]
        exact contains_false_forall street1 ',' hc c hc2) (by simp)
    constructor
    · simp only [matchP1, hx, List.drop_left]
      rw [htail]
      simp
    · simp only [matchP2, hx, List.drop_left]
      rw [htail]
      simp

/-- The rebuilt address `street, STATE postcode` of the best-effort path never
matches either acceptance pattern. -/
lemma rebuild_no_match (street1 st pc : List Char) (hst : st ∈ auStates)
    (hpc4 : pc.length = 4) (hpcd : ∀ c ∈ pc, c.isDigit = true) :
    matchP1 (street1 ++ ',' :: ' ' :: (st ++ ' ' :: pc)) = false ∧
    matchP2 (street1 ++ ',' :: ' ' :: (st ++ ' ' :: pc)) = false :=
  matchP_false_with_comma_tail street1 (' ' :: (st ++ ' ' :: pc))
    (tailY_state_false st pc hst hpc4 hpcd)

/-- Whatever the acceptance stage decides, the returned string is the input
string except on the (never successful) rebuild path. -/
lemma addressAccept_snd (a : List Char) : (addressAccept a).2 = String.mk a := by
  simp only [addressAccept]
  by_cases hm : (matchP1 a || matchP2 a) = true
  · rw [if_pos hm]
  · rw [if_neg hm]
    cases hpc : postcodeSearch none a with
    | none => rfl
    | some pc =>
      cases hst : stateSearch a with
      | none => rfl
      | some st =>
        have hstm : st ∈ auStates := List.mem_of_find?_eq_some hst
        obtain ⟨hpc4, hpcd⟩ := postcodeSearch_spec a none pc hpc
        dsimp only
        cases hsplit : splitPartsTwo st a with
        | none => rfl
        | some pr =>
          obtain ⟨part0, part1⟩ := pr
          dsimp only
          rcases rebuild_no_match
            (if (trimList part0).contains ',' = true then trimList part0
             else insertComma (trimList part0)) st pc hstm hpc4 hpcd with ⟨hm1, hm2⟩
          rw [if_neg (by rw [hm1, hm2]; simp)]

/-- Claim C8: for every address string of the shape
`(Unit )?\d+[A-Za-z]?[/\]\d+[A-Za-z]? .+` (with the rest nonempty,
newline-free and not starting or ending in whitespace, so that the pre-strip
leaves it unchanged), `validate_address` strips the unit prefix and returns
exactly the post-slash building number followed by the rest; in particular
"Unit 2/40 Minchinton St, Caloundra QLD 4551" normalizes to
"40 Minchinton St, Caloundra QLD 4551" with valid = true. -/
theorem c8_address_unit_strip (addr : String)
    (u n1 L1 n2 L2 rest : List Char) (sep : Char)
    (hu : u = "Unit ".toList ∨ u = [])
    (hn1 : n1 ≠ [] ∧ ∀ c ∈ n1, c.isDigit = true)
    (hL1 : L1 = [] ∨ ∃ c, L1 = [c] ∧ isAsciiLetter c = true)
    (hsep : sep = '/' ∨ sep = '\\')
    (hn2 : n2 ≠ [] ∧ ∀ c ∈ n2, c.isDigit = true)
    (hL2 : L2 = [] ∨ ∃ c, L2 = [c] ∧ isAsciiLetter c = true)
    (hrest : rest ≠ [])
    (hrhead : ∀ c, rest.head? = some c → isWS c = false)
    (hrlast : ∀ c, rest.getLast? = some c → isWS c = false)
    (hnl : rest.contains '\n' = false)
    (haddr : addr = String.mk (u ++ ((n1 ++ L1) ++ sep :: (n2 ++ L2 ++ ' ' :: rest)))) :
    (validate_address addr).2 = String.mk ((n2 ++ L2) ++ ' ' :: rest) ∧
    validate_address "Unit 2/40 Minchinton St, Caloundra QLD 4551" =
      (true, "40 Minchinton St, Caloundra QLD 4551") := by
  subst haddr
  refine ⟨?_, by decide⟩
  have hinput_ne : (u ++ ((n1 ++ L1) ++ sep :: (n2 ++ L2 ++ ' ' :: rest))) ≠ [] := by
    simp
  have hne : String.mk (u ++ ((n1 ++ L1) ++ sep :: (n2 ++ L2 ++ ' ' :: rest))) ≠ "" := by
    intro h
    exact hinput_ne (congrArg String.data h)
  unfold validate_address
  rw [if_neg hne]
  have htl : (String.mk (u ++ ((n1 ++ L1) ++ sep :: (n2 ++ L2 ++ ' ' :: rest)))).toList
      = u ++ ((n1 ++ L1) ++ sep :: (n2 ++ L2 ++ ' ' :: rest)) := rfl
  rw [htl]
  have hhead : ∀ c, (u ++ ((n1 ++ L1) ++ sep :: (n2 ++ L2 ++ ' ' :: rest))).head? = some c →
      isWS c = false := by
    intro c hc
    rcases hu with rfl | rfl
    · rw [show ("Unit ".toList ++ ((n1 ++ L1) ++ sep :: (n2 ++ L2 ++ ' ' :: rest))).head?
          = some 'U' from rfl] at hc
      injection hc with hc
      exact hc ▸ (by decide : isWS 'U' = false)
    · rw [List.nil_append] at hc
      obtain ⟨d, n1t, rfl⟩ : ∃ d t, n1 = d :: t := by
        cases n1 with
        | nil => exact absurd rfl hn1.1
        | cons d t => exact ⟨d, t, rfl⟩
      rw [show (((d :: n1t) ++ L1) ++ sep :: (n2 ++ L2 ++ ' ' :: rest)).head?
          = some d from rfl] at hc
      injection hc with hc
      exact hc ▸ isDigit_not_ws d (hn1.2 d (by simp))
  have hlast : ∀ c, (u ++ ((n1 ++ L1) ++ sep :: (n2 ++ L2 ++ ' ' :: rest))).getLast? = some c →
      isWS c = false := by
    intro c hc
    have hshape : u ++ ((n1 ++ L1) ++ sep :: (n2 ++ L2 ++ ' ' :: rest))
        = (u ++ ((n1 ++ L1) ++ sep :: (n2 ++ L2 ++ [' ']))) ++ rest := by
      simp [List.append_assoc]
    rw [hshape, List.getLast?_append_of_ne_nil _ hrest] at hc
    exact hrlast c hc
  dsimp only
  rw [trimList_eq_self _ hhead hlast]
  rw [unitMatch_shaped u n1 L1 n2 L2 rest sep hu hn1 hL1 hsep hn2 hL2 hrest hrhead hnl]
  exact addressAccept_snd ((n2 ++ L2) ++ ' ' :: rest)

/-- Witness for C8 at the specification's own example address. -/
theorem c8_address_unit_strip_witness :
    (validate_address "Unit 2/40 Minchinton St, Caloundra QLD 4551").2 =
      "40 Minchinton St, Caloundra QLD 4551" := by
  have h := c8_address_unit_strip "Unit 2/40 Minchinton St, Caloundra QLD 4551"
    "Unit ".toList ['2'] [] ['4', '0'] [] "Minchinton St, Caloundra QLD 4551".toList '/'
    (Or.inl rfl) ⟨by decide, by decide⟩ (Or.inl rfl) (Or.inl rfl)
    ⟨by decide, by decide⟩ (Or.inl rfl) (by decide) (by decide) (by decide)
    (by decide) (by decide)
  exact h.1.trans (by decide)

/-- Witness for C10's per-row block characterization: a skipped row, an
error-candidate row, and a matched 3-staff row each contribute the stated
block of expansion rows. -/
theorem c10_rows_preserved_witness :
    ((processRow "d" [] (phoneFix rowC6)).2.1 = [])
  ∧ ((processRow "d" [("Acme Psychology", PracticeVal.list [])] (phoneFix rowC6)).2.1 = [])
  ∧ ((processRow "2025-04-01" [("Wisemind Psychology", PracticeVal.dict pdC1)]
        (phoneFix rowC1)).2.1 =
      ((resolvePVal (PracticeVal.dict pdC1)).psychologists.tail).map
        (cloneRow "2025-04-01" (phoneFix rowC1) (resolvePVal (PracticeVal.dict pdC1)))) :=
  by
  refine ⟨?_, ?_, ?_⟩
  · exact (c10_rows_preserved "d" [rowC6] []).2.2.2.1 rowC6 (Or.inr rfl)
  · have h1 : rowC6.practice ≠ "" := by decide
    have h2 : lookupPractice [("Acme Psychology", PracticeVal.list [])] rowC6.practice
        = some (PracticeVal.list []) := by decide
    have h3 : (resolvePVal (PracticeVal.list [])).error
        = some "Empty list for practice data" := by decide
    exact (c10_rows_preserved "d" [rowC6] [("Acme Psychology", PracticeVal.list [])]).2.2.2.2.1
      rowC6 (PracticeVal.list []) "Empty list for practice data" h1 h2 h3
  · have h1 : rowC1.practice ≠ "" := by decide
    have h2 : lookupPractice [("Wisemind Psychology", PracticeVal.dict pdC1)] rowC1.practice
        = some (PracticeVal.dict pdC1) := by decide
    have h3 : (resolvePVal (PracticeVal.dict pdC1)).error = none := by decide
    exact (c10_rows_preserved "2025-04-01" [rowC1]
        [("Wisemind Psychology", PracticeVal.dict pdC1)]).2.2.2.2.2
      rowC1 (PracticeVal.dict pdC1) h1 h2 h3
